import Mathlib

/-
Shallow embedding of the jsonrpc-go request engine (jsonrpc.go, errors.go,
methods.go, jsontype.go) for checking the natural-language specification.

Modelling conventions:
  * JSON values decoded by encoding/json into `interface{}` are modelled by
    `Value` (numbers as `Int`; Go decodes every JSON number to float64, and
    only the number/string/bool/null/array/object distinction matters here).
  * Go `error` values are modelled by `GoError`; the concrete `*RPCError`
    type is the mutual inductive `RPCError`.
  * A Go panic is modelled as an explicit outcome (`CallOut.panicOut`,
    `ParseOutcome.panicked`, `ServeResult.panicked`); `recover` is the wrapper
    in `invokeMethod`.
  * encoding/json is an external capability: its observable behaviour on the
    shapes used by this engine is modelled by `decodeConcrete` and
    `unmarshalShape` (offsets in decode errors are not tracked byte-exactly).
-/

/-- A decoded JSON value as encoding/json produces it into an empty interface. -/
inductive Value where
  | null
  | bool (b : Bool)
  | num (n : Int)
  | str (s : String)
  | arr (l : List Value)
  | obj (l : List (String × Value))

/-- Go interface equality succeeds on the hashable decoded JSON values
(nil, bool, float64, string); maps and slices make the runtime hash panic.
This predicate marks the hashable ones. -/
def hashable : Value → Bool
  | .arr _ => false
  | .obj _ => false
  | _ => true

/-- Equality as Go map keys compare the hashable decoded values.  Defined only
to be consulted on hashable values (unhashable ones panic before comparison). -/
def hashEq : Value → Value → Bool
  | .null, .null => true
  | .bool a, .bool b => a == b
  | .num a, .num b => a == b
  | .str a, .str b => a == b
  | _, _ => false

/-- Models the `switch req.ID.(type) case float64, string` id validation. -/
def isNumOrStr : Value → Bool
  | .num _ => true
  | .str _ => true
  | _ => false

/-- Is this decoded value JSON null? (`json.Unmarshal` stores nil into a
pointer target for a null.) -/
def Value.isNull : Value → Bool
  | .null => true
  | _ => false

/-- reflect.Kind of a Go type, restricted to the kinds `jsonType` inspects. -/
inductive GoKind where
  | bool | int | int8 | int16 | int32 | int64
  | uint | uint8 | uint16 | uint32 | uint64
  | float32 | float64 | complex64 | complex128
  | string | struct | map | array | slice
  | chan | func | interface | uintptr
deriving DecidableEq

/-- A reflect.Type: either a pointer or a base type identified by kind,
package path (empty for predeclared types) and name. -/
inductive GoType where
  | ptr (t : GoType)
  | base (kind : GoKind) (pkgPath : String) (name : String)

/-- The primitive-kind switch of `jsonType` (the body of the
`if t.PkgPath() == ""` block). -/
def primJSONType : GoKind → String
  | .bool => "boolean"
  | .int => "integer"
  | .int8 => "integer"
  | .int16 => "integer"
  | .int32 => "integer"
  | .int64 => "integer"
  | .uint => "integer"
  | .uint8 => "integer"
  | .uint16 => "integer"
  | .uint32 => "integer"
  | .uint64 => "integer"
  | .float32 => "number"
  | .float64 => "number"
  | .complex64 => "number"
  | .complex128 => "number"
  | .string => "string"
  | _ => ""

/-- The structural-kind switch of `jsonType` (struct/map to object,
array/slice to array). -/
def structuralJSONType : GoKind → String
  | .struct => "object"
  | .map => "object"
  | .array => "array"
  | .slice => "array"
  | _ => ""

/-- `jsonType` from jsontype.go: strip pointers; predeclared primitive kinds
map to their JSON names; `time.Time` and `time.Duration` map to dedicated
names; then struct/map and array/slice; anything else yields no name. -/
def jsonType : GoType → String
  | .ptr t => jsonType t
  | .base k pkg name =>
    if pkg = "" ∧ primJSONType k ≠ "" then primJSONType k
    else if pkg = "time" ∧ name = "Time" then "time"
    else if pkg = "time" ∧ name = "Duration" then "duration"
    else structuralJSONType k

/-- A structural decode fault from encoding/json, as `jsonErrorDetails`
distinguishes them: a pure syntax error, or an unmarshal type mismatch. -/
inductive JSONDecodeError where
  | syntaxErr (offset : Nat) (msg : String)
  | typeErr (offset : Nat) (value : String) (field : String) (ty : GoType)

/-- `jsonErrorDetails` from jsontype.go: the sanitized position-annotated
description of a decode fault. -/
def jsonErrorDetails : JSONDecodeError → String
  | .syntaxErr off msg => "offset " ++ toString off ++ ": " ++ msg
  | .typeErr off val field ty =>
    let fieldText := if field ≠ "" then " to \"" ++ field ++ "\"" else ""
    let typeText := if jsonType ty ≠ "" then " as " ++ jsonType ty else ""
    "offset " ++ toString off ++ ": cannot unmarshal " ++ val ++ fieldText ++ typeText

/-- The `Error()` rendering of the underlying encoding/json error (used only
as the wrapped cause of a ParseError). -/
def jsonDecodeErrorString : JSONDecodeError → String
  | .syntaxErr _ msg => msg
  | .typeErr _ val _ ty =>
    "json: cannot unmarshal " ++ val ++ " into Go value of type " ++ jsonType ty

mutual
/-- The `RPCError` struct from errors.go: name, message, optional data,
the unexported dump flag, and the optional wrapped cause. -/
inductive RPCError where
  | mk (name : String) (message : String) (data : Option Value)
       (dumpErrors : Bool) (wrapped : Option GoError)

/-- A Go `error` value as this engine observes it: either a `*RPCError` or
some other error carrying only its rendered message. -/
inductive GoError where
  | rpc (e : RPCError)
  | plain (msg : String)
end

def RPCError.name : RPCError → String
  | .mk n _ _ _ _ => n

def RPCError.message : RPCError → String
  | .mk _ m _ _ _ => m

def RPCError.data : RPCError → Option Value
  | .mk _ _ d _ _ => d

def RPCError.dumpErrors : RPCError → Bool
  | .mk _ _ _ du _ => du

def RPCError.wrapped : RPCError → Option GoError
  | .mk _ _ _ _ w => w

/-- The `Error(name, message)` constructor (no format arguments needed by
the engine itself). -/
def mkError (name message : String) : RPCError :=
  .mk name message none false none

/-- The fluent `Wrap` setter. -/
def RPCError.wrap : RPCError → GoError → RPCError
  | .mk n m d du _, w => .mk n m d du (some w)

/-- `InternalError`: kind internal_error, message "internal error", wrapping
the underlying fault. -/
def internalError (err : GoError) : RPCError :=
  (mkError "internal_error" "internal error").wrap err

/-- `InvalidRequest`. -/
def invalidRequest (msg : String) : RPCError :=
  mkError "invalid_request" msg

/-- `MethodNotFound`. -/
def methodNotFound (m : String) : RPCError :=
  mkError "method_not_found" ("method not found: " ++ m)

/-- `ParseError`: appends the sanitized decode description to the message and
wraps the underlying json error. -/
def parseError (err : JSONDecodeError) (msg : String) : RPCError :=
  let details := jsonErrorDetails err
  let msg := if details ≠ "" then msg ++ ": " ++ details else msg
  (mkError "parse_error" msg).wrap (.plain (jsonDecodeErrorString err))

/-- Sets the unexported dump flag (the `r.Error.dumpErrors = true` assignment
done by ServeHTTP, generalized to an arbitrary flag value for statements
about toggling). -/
def setDump (b : Bool) : RPCError → RPCError
  | .mk n m d _ w => .mk n m d b w

/-- `translateError` on a non-nil error: an `*RPCError` passes through;
anything else becomes an InternalError wrapping it. -/
def translateRPC : GoError → RPCError
  | .rpc e => e
  | .plain s => internalError (.plain s)

/-- `translateError` including the nil case. -/
def translateErrorOpt : Option GoError → Option RPCError
  | none => none
  | some e => some (translateRPC e)

mutual
/-- The `Error()` method of RPCError: "jsonrpc: " plus the name with
underscores replaced by spaces, then the message, then the wrapped cause. -/
def RPCError.errorString : RPCError → String
  | .mk name message _ _ wrapped =>
    let s := "jsonrpc: " ++ (name.map (fun c => if c = '_' then ' ' else c))
    let s := if message ≠ "" then s ++ ": " ++ message else s
    match wrapped with
    | some w => s ++ ": " ++ GoError.render w
    | none => s

/-- How `fmt.Sprintf("%+v", err)` renders a Go error: its `Error()` string. -/
def GoError.render : GoError → String
  | .rpc e => RPCError.errorString e
  | .plain msg => msg
end

/-- The serialized form of an RPCError per `MarshalJSON`: name, message,
optional data, optional details (data and details are omitempty). -/
structure SerializedError where
  name : String
  message : String
  data : Option Value
  details : Option (List String)

/-- Models `strings.Replace(s, "\t", "  ", -1)`: the pattern is the single
tab character, so every tab becomes two spaces. -/
def replaceTabsTwoSpaces (s : String) : String :=
  ⟨s.data.foldr (fun c acc => if c = '\t' then ' ' :: ' ' :: acc else c :: acc) []⟩

/-- The accumulator loop of `splitLines`. -/
def splitLinesAux : List Char → List Char → List String
  | [], acc => [⟨acc.reverse⟩]
  | c :: cs, acc =>
    if c = '\n' then (⟨acc.reverse⟩ : String) :: splitLinesAux cs []
    else splitLinesAux cs (c :: acc)

/-- Models `strings.Split(s, "\n")`: split on each newline, keeping empty
segments, always at least one segment. -/
def splitLines (s : String) : List String := splitLinesAux s.data []

/-- The details rendering of `MarshalJSON`: stringify the wrapped cause,
replace every tab by two spaces, split on newlines into an ordered list of
lines. -/
def renderDetails (w : GoError) : List String :=
  splitLines (replaceTabsTwoSpaces (GoError.render w))

/-- `RPCError.MarshalJSON`: details are populated exactly when the dump flag
is set and a cause is wrapped. -/
def marshalRPCError (e : RPCError) : SerializedError :=
  { name := e.name
    message := e.message
    data := e.data
    details :=
      match e.wrapped with
      | some w => if e.dumpErrors then some (renderDetails w) else none
      | none => none }

/-- The per-call context; the engine injects the method name into it
(`contextKeyMethod`). -/
structure Context where
  method : String

/-- A Go value as handed to a handler parameter: a concrete decoded value,
or a pointer (possibly nil) produced by decoding into a pointer shape. -/
inductive GoValue where
  | concrete (v : Value)
  | ptrTo (g : GoValue)
  | nilPtr

/-- A panic value, as the recover block inspects it: either an error value
or any other value (which `fmt.Errorf` renders to a message). -/
inductive PanicVal where
  | errVal (e : GoError)
  | other (rendered : String)

/-- The recover conversion: an error panics through unchanged; anything else
becomes an error carrying its rendering. -/
def panicToErr : PanicVal → GoError
  | .errVal e => e
  | .other s => .plain s

/-- The outcome of running a composed pipeline: a normal Go return
(result, error) where a nil result is `none`, or a panic. -/
inductive CallOut where
  | ret (v : Option Value) (e : Option GoError)
  | panicOut (p : PanicVal)

/-- The `Next` function type passed through middleware. -/
def Next : Type := Context → Option GoValue → CallOut

/-- A middleware layer wraps one pipeline into another. -/
def Middleware : Type := Next → Next

/-- The concrete parameter shapes used to model handler parameter types. -/
inductive ConcreteShape where
  | str | num | boolS | anyShape

/-- A declared handler parameter shape: a concrete shape under zero or more
levels of pointer indirection. -/
inductive ParamShape where
  | concrete (s : ConcreteShape)
  | ptr (s : ParamShape)

/-- The reported JSON kind of a decoded value, as `UnmarshalTypeError.Value`
names it. -/
def jsonValueName : Value → String
  | .null => "null"
  | .bool _ => "bool"
  | .num _ => "number"
  | .str _ => "string"
  | .arr _ => "array"
  | .obj _ => "object"

/-- The reflect.Type corresponding to a concrete shape (for the Type field of
an UnmarshalTypeError). -/
def shapeGoType : ConcreteShape → GoType
  | .str => .base .string "" "string"
  | .num => .base .float64 "" "float64"
  | .boolS => .base .bool "" "bool"
  | .anyShape => .base .interface "" ""

/-- The zero value a decode of JSON null leaves in a concrete target. -/
def zeroValue : ConcreteShape → Value
  | .str => .str ""
  | .num => .num 0
  | .boolS => .bool false
  | .anyShape => .null

/-- Models `json.Unmarshal` of a decoded JSON value into a concrete target:
an empty interface accepts anything, null leaves the zero value, a matching
kind decodes, and a mismatch yields an UnmarshalTypeError. -/
def decodeConcrete : ConcreteShape → Value → Except JSONDecodeError Value
  | .anyShape, v => .ok v
  | .str, .null => .ok (zeroValue .str)
  | .num, .null => .ok (zeroValue .num)
  | .boolS, .null => .ok (zeroValue .boolS)
  | .str, .str s => .ok (.str s)
  | .num, .num n => .ok (.num n)
  | .boolS, .bool b => .ok (.bool b)
  | sh, v => .error (.typeErr 1 (jsonValueName v) "" (shapeGoType sh))

/-- Models `json.Unmarshal` into a target of the given declared shape:
a pointer target is allocated for non-null input and set to nil for null. -/
def unmarshalShape : ParamShape → Value → Except JSONDecodeError GoValue
  | .concrete s, j => (decodeConcrete s j).map GoValue.concrete
  | .ptr s, j =>
    if j.isNull then .ok .nilPtr
    else (unmarshalShape s j).map GoValue.ptrTo

/-- `json.Unmarshal` of the raw params payload: an absent payload is a nil
RawMessage, which fails with a syntax error. -/
def unmarshalRaw (sh : ParamShape) : Option Value → Except JSONDecodeError GoValue
  | none => .error (.syntaxErr 0 "unexpected end of JSON input")
  | some j => unmarshalShape sh j

/-- `newParams` panics via `reflect.Value.Set` when the declared shape has two
or more pointer levels: after the first loop iteration the zero value of the
next element type is no longer assignable to the allocated cell. -/
def newParamsPanics : ParamShape → Bool
  | .ptr (.ptr _) => true
  | _ => false

/-- The rendering of the reflect.Set panic raised by `newParams` on a doubly
indirect parameter shape. -/
def reflectSetMsg : String :=
  "reflect: call of reflect.Value.Set with wrong type"

/-- A resolved method: its declared parameter shape (none for handlers taking
only a context) and the composed invocation pipeline. -/
structure Method where
  paramsType : Option ParamShape
  call : Next

/-- The engine: the dump flag and the method registry. -/
structure Handler where
  dumpErrors : Bool
  methods : List (String × Method)

/-- Registry lookup by method name. -/
def lookupMethod (h : Handler) (name : String) : Option Method :=
  (h.methods.find? (fun kv => kv.1 == name)).map (·.2)

/-- A Request Record: method name, raw params payload (none when absent), and
the decoded id (JSON null when absent or null). -/
structure Request where
  method : String
  params : Option Value
  id : Value

/-- A Response Record; `none` fields are omitted by omitempty on the wire. -/
structure ResponseRecord where
  id : Value
  result : Option Value
  error : Option RPCError

/-- Finishing a pipeline call as `invokeMethod` does: on a non-nil error the
result is dropped and the error translated; a panic escapes to the recover
block. -/
def runCall (ctx : Context) (m : Method) (args : Option GoValue) :
    Except PanicVal (Option Value × Option GoError) :=
  match m.call ctx args with
  | .ret v none => .ok (v, none)
  | .ret _ (some e) => .ok (none, some (.rpc (translateRPC e)))
  | .panicOut p => .error p

/-- The body of `invokeMethod` before the deferred recover: id validation,
method lookup, parameter instantiation and decoding, then the pipeline call. -/
def invokeMethodBody (h : Handler) (req : Request) :
    Except PanicVal (Option Value × Option GoError) :=
  if isNumOrStr req.id = false then
    .ok (none, some (.rpc (invalidRequest "id must be number or string")))
  else
    match lookupMethod h req.method with
    | none => .ok (none, some (.rpc (methodNotFound req.method)))
    | some m =>
      match m.paramsType with
      | none => runCall { method := req.method } m none
      | some sh =>
        if newParamsPanics sh then .error (.other reflectSetMsg)
        else
          match unmarshalRaw sh req.params with
          | .error de => .ok (none, some (.rpc (parseError de "cannot parse params")))
          | .ok gv => runCall { method := req.method } m (some gv)

/-- `invokeMethod`: the body under the deferred recover, which converts any
panic into a nil result and an InternalError wrapping the panic value. -/
def invokeMethod (h : Handler) (req : Request) : Option Value × Option GoError :=
  match invokeMethodBody h req with
  | .ok r => r
  | .error p => (none, some (.rpc (internalError (panicToErr p))))

/-- The observable finish of a pipeline outcome (used to state which argument
the dispatcher hands to the pipeline). -/
def recoverResult : CallOut → Option Value × Option GoError
  | .ret v none => (v, none)
  | .ret _ (some e) => (none, some (.rpc (translateRPC e)))
  | .panicOut p => (none, some (.rpc (internalError (panicToErr p))))

/-- The argument the params stage would hand the pipeline, or none when that
stage exits early (decode failure or reflect panic). -/
def resolvedArgs (m : Method) (req : Request) : Option (Option GoValue) :=
  match m.paramsType with
  | none => some none
  | some sh =>
    if newParamsPanics sh then none
    else
      match unmarshalRaw sh req.params with
      | .ok gv => some (some gv)
      | .error _ => none

/-- The incoming payload after the byte-level shape sniff of `parseRequests`:
a body starting with a brace decoded as one record, any other body decoded as
an array of records, or a body on which the structural decode failed. -/
inductive Payload where
  | single (r : Request)
  | array (rs : List Request)
  | malformed (de : JSONDecodeError)

/-- Outcome of the id-uniqueness loop over the decoded ids. -/
inductive IdCheck where
  | ok
  | dup
  | panicked

/-- The id-uniqueness loop of `parseRequests`: each id is first hashed as a
map key (a runtime panic for an unhashable id), then checked against the set,
then inserted. -/
def checkIds (seen : List Value) : List Value → IdCheck
  | [] => .ok
  | id :: rest =>
    if hashable id = false then .panicked
    else if seen.any (hashEq id) then .dup
    else checkIds (id :: seen) rest

/-- Outcome of `parseRequests`: the decoded records, an envelope-level error,
or a runtime panic escaping the function. -/
inductive ParseOutcome where
  | ok (rs : List Request)
  | err (e : RPCError)
  | panicked

/-- The tail of `parseRequests` shared by both decode branches: the empty
batch check, then the id-uniqueness loop. -/
def finishParse (rs : List Request) : ParseOutcome :=
  if rs.length = 0 then .err (invalidRequest "empty batch")
  else
    match checkIds [] (rs.map (·.id)) with
    | .ok => .ok rs
    | .dup => .err (invalidRequest "ids must be unique")
    | .panicked => .panicked

/-- `parseRequests` on the sniffed payload. -/
def parseRequestsModel : Payload → ParseOutcome
  | .malformed de => .err (parseError de "cannot parse request")
  | .single r => finishParse [r]
  | .array rs => finishParse rs

/-- The per-record response assembly in the ServeHTTP loop. -/
def mkResponse (h : Handler) (req : Request) : ResponseRecord :=
  let ie := invokeMethod h req
  { id := req.id, result := ie.1, error := translateErrorOpt ie.2 }

/-- The dump loop of ServeHTTP: when the engine flag is set, every response
error gets its dump flag set. -/
def applyDump (h : Handler) (r : ResponseRecord) : ResponseRecord :=
  if h.dumpErrors then { r with error := r.error.map (setDump true) } else r

/-- The serialized body: a bare object or an array of records. -/
inductive Body where
  | object (r : ResponseRecord)
  | array (rs : List ResponseRecord)

/-- The outcome of one HTTP exchange: a status code and body, or a panic
escaping ServeHTTP. -/
inductive ServeResult where
  | response (status : Nat) (body : Body)
  | panicked

/-- The envelope choice of ServeHTTP: one record is serialized bare,
otherwise the array is serialized. -/
def assembleBody (l : List ResponseRecord) : Body :=
  if l.length = 1 then .object (l.headD { id := .null, result := none, error := none })
  else .array l

/-- `ServeHTTP`: parse, per-record dispatch, dump-flag application, envelope
assembly.  An envelope-level parse failure is sent with status 400 and a null
id, without the dump loop; a successfully parsed payload is sent with 200. -/
def serveHTTP (h : Handler) (p : Payload) : ServeResult :=
  match parseRequestsModel p with
  | .err e =>
    .response 400 (.object { id := .null, result := none,
                             error := translateErrorOpt (some (.rpc e)) })
  | .panicked => .panicked
  | .ok reqs =>
    let responses := (reqs.map (mkResponse h)).map (applyDump h)
    if reqs.length = 1 then
      .response 200 (.object (responses.headD { id := .null, result := none, error := none }))
    else
      .response 200 (.array responses)

/-- The records of a serialized body. -/
def bodyRecords : Body → List ResponseRecord
  | .object r => [r]
  | .array rs => rs

/-- Every RPC error emitted in a serve outcome. -/
def emittedErrors : ServeResult → List RPCError
  | .response _ b => (bodyRecords b).filterMap (·.error)
  | .panicked => []

/-- A group of methods (`Group` in the source; renamed here because Lean
already uses that name): the root group, or a child group with its parent;
each carries its own ordered middleware layers. -/
inductive RpcGroup where
  | root (middleware : List Middleware)
  | child (middleware : List Middleware) (parent : RpcGroup)

/-- The inner loop of `resolveMethod`: own layers applied from the last-added
to the first-added, each application wrapping outside the previous call. -/
def applyOwn (layers : List Middleware) (call : Next) : Next :=
  layers.foldr (fun mw c => mw c) call

/-- The full composition loop of `resolveMethod`: apply the own layers of the
group, then walk to the parent and repeat until the root. -/
def composeChain : RpcGroup → Next → Next
  | .root layers, call => applyOwn layers call
  | .child layers parent, call => composeChain parent (applyOwn layers call)

/-- The within-group application order as claim C5 states it (the most
recently added layer becoming the outermost of the group layers); written
from the claim text, for comparison against `applyOwn`. -/
def applyOwnClaim (layers : List Middleware) (call : Next) : Next :=
  layers.foldl (fun c mw => mw c) call

/-- The full composition as claim C5 states it: own layers with the
most-recently-added outermost, then each ancestor walking outward. -/
def composeChainClaim : RpcGroup → Next → Next
  | .root layers, call => applyOwnClaim layers call
  | .child layers parent, call => composeChainClaim parent (applyOwnClaim layers call)

/-- An observation middleware: appends its tag to an array travelling in the
params slot before passing the call on, so the order of tags in the array is
the order in which layers observe the call. -/
def tagMW (s : String) : Middleware :=
  fun next ctx p => next ctx (pushTag s p)
where
  pushTag (s : String) : Option GoValue → Option GoValue
    | some (.concrete (.arr l)) => some (.concrete (.arr (l ++ [.str s])))
    | p => p

/-- The raw handler used under the observation middlewares: it returns the
tag array it received. -/
def baseNext : Next := fun _ p =>
  match p with
  | some (.concrete v) => .ret (some v) none
  | _ => .ret none none

/-- Pushing a list of tags in order. -/
def pushTags (tags : List String) (p : Option GoValue) : Option GoValue :=
  tags.foldl (fun acc s => tagMW.pushTag s acc) p

/-- Builds a group chain from tag lists, the owning group first and the root
last, each group carrying one observation layer per tag in added order. -/
def chainOf : List (List String) → RpcGroup
  | [] => .root []
  | [own] => .root (own.map tagMW)
  | own :: rest => .child (own.map tagMW) (chainOf rest)

/-- The primitive clauses of claim C8, as stated: boolean, all fixed-width
integer widths, floating point and complex, string; no predeclared-only
qualification appears in the claim. -/
def claimedPrimName : GoKind → String
  | .bool => "boolean"
  | .int | .int8 | .int16 | .int32 | .int64
  | .uint | .uint8 | .uint16 | .uint32 | .uint64 => "integer"
  | .float32 | .float64 | .complex64 | .complex128 => "number"
  | .string => "string"
  | _ => ""

/-- The structural clauses of claim C8: object for structs and maps, array
for arrays and sequences. -/
def claimedStructuralName : GoKind → String
  | .struct | .map => "object"
  | .array | .slice => "array"
  | _ => ""

/-- The claim C8 mapping from expected shape to reported type name, written
clause by clause from the claim text (for the counterexample). -/
def claimedJSONType : GoType → String
  | .ptr t => claimedJSONType t
  | .base k pkg name =>
    if claimedPrimName k ≠ "" then claimedPrimName k
    else if pkg = "time" ∧ name = "Time" then "time"
    else if pkg = "time" ∧ name = "Duration" then "duration"
    else claimedStructuralName k

/-- The primitive-or-structural clause of the amended C8 mapping for
predeclared shapes (empty package path). -/
def amendedUnnamedName : GoKind → String
  | .bool => "boolean"
  | .int | .int8 | .int16 | .int32 | .int64
  | .uint | .uint8 | .uint16 | .uint32 | .uint64 => "integer"
  | .float32 | .float64 | .complex64 | .complex128 => "number"
  | .string => "string"
  | .struct | .map => "object"
  | .array | .slice => "array"
  | _ => ""

/-- The clause of the amended C8 mapping for named shapes other than the
dedicated time shapes: only structural kinds report a name. -/
def amendedNamedName : GoKind → String
  | .struct | .map => "object"
  | .array | .slice => "array"
  | _ => ""

/-- The amended C8 mapping: primitive names apply only to predeclared shapes
(empty package path); a named shape of primitive kind that is not one of the
dedicated time shapes yields no type clause; structs/maps and arrays/slices
map structurally; indirections are stripped. -/
def amendedJSONType : GoType → String
  | .ptr t => amendedJSONType t
  | .base k pkg name =>
    if pkg = "time" ∧ name = "Time" then "time"
    else if pkg = "time" ∧ name = "Duration" then "duration"
    else if pkg = "" then amendedUnnamedName k
    else amendedNamedName k

/-- A handler whose pipelines only ever return RPC errors with the dump flag
unset, as every public error constructor produces them.  The dump flag is an
unexported field, so application handlers cannot set it. -/
def handlerErrorsClean (h : Handler) : Prop :=
  ∀ name m, lookupMethod h name = some m →
    ∀ ctx args v e, m.call ctx args = .ret v (some (.rpc e)) →
      e.dumpErrors = false

/-- An engine with no methods and the dump flag off. -/
def hEmpty : Handler := { dumpErrors := false, methods := [] }

/-- An engine with no methods and the dump flag on. -/
def hEmptyDump : Handler := { dumpErrors := true, methods := [] }

/-- A single request whose id is the JSON boolean true. -/
def reqBoolId : Request := { method := "Now", params := none, id := .bool true }

/-- A request with an empty JSON array as its id (unhashable kind). -/
def reqArr1 : Request := { method := "a", params := none, id := .arr [] }

/-- A second request with the same array id. -/
def reqArr2 : Request := { method := "b", params := none, id := .arr [] }

/-- A request with id 1. -/
def reqDup1 : Request := { method := "a", params := none, id := .num 1 }

/-- A second request with the duplicate id 1. -/
def reqDup2 : Request := { method := "b", params := none, id := .num 1 }

/-- A method declaring a pointer-to-string parameter whose handler reports
the indirection level of the argument it receives. -/
def probeMethod : Method :=
  { paramsType := some (.ptr (.concrete .str)),
    call := fun _ p =>
      match p with
      | some (.ptrTo _) => .ret (some (.str "pointer value")) none
      | some (.concrete _) => .ret (some (.str "concrete value")) none
      | _ => .ret (some (.str "other")) none }

/-- An engine exposing only the probe method under the name Hello. -/
def hProbe : Handler := { dumpErrors := false, methods := [("Hello", probeMethod)] }

/-- A request for the probe method with a string params payload. -/
def reqAlice : Request := { method := "Hello", params := some (.str "Alice"), id := .num 1 }

/-- A root group with two observation layers, A added before B. -/
def groupAB : RpcGroup := .root [tagMW "A", tagMW "B"]

/-- A fixed context for observing middleware order. -/
def obsCtx : Context := { method := "m" }

/-- An empty tag accumulator in the params slot. -/
def obsParams : Option GoValue := some (.concrete (.arr []))

/-- A parameterless method whose pipeline panics with a non-error value. -/
def panicMethod : Method :=
  { paramsType := none, call := fun _ _ => .panicOut (.other "panic error") }

/-- A parameterless method returning a plain string result. -/
def okMethod : Method :=
  { paramsType := none, call := fun _ _ => .ret (some (.str "ok")) none }

/-- An engine with the panicking method and a healthy sibling method. -/
def hPanicOk : Handler :=
  { dumpErrors := false, methods := [("Panic", panicMethod), ("Ok", okMethod)] }

/-- A request for the panicking method. -/
def reqPanic : Request := { method := "Panic", params := none, id := .num 1 }

/-- A request for the healthy method. -/
def reqOk : Request := { method := "Ok", params := none, id := .num 2 }

/-- A second request for the healthy method with a distinct id. -/
def reqOk1 : Request := { method := "Ok", params := none, id := .num 1 }

/-- A parameterless method returning a nil result and a nil error. -/
def noopMethod : Method :=
  { paramsType := none, call := fun _ _ => .ret none none }

/-- An engine with only the noop method. -/
def hNoop : Handler := { dumpErrors := false, methods := [("Do", noopMethod)] }

/-- A request for the noop method. -/
def reqDo : Request := { method := "Do", params := none, id := .num 1 }

/-- A parameterless method returning a timestamp string. -/
def nowMethod : Method :=
  { paramsType := none, call := fun _ _ => .ret (some (.str "2000-01-01T01:00:00Z")) none }

/-- An engine with only the timestamp method. -/
def hNow : Handler := { dumpErrors := false, methods := [("Now", nowMethod)] }

/-- A request for the timestamp method carrying an arbitrary params payload. -/
def reqNow : Request := { method := "Now", params := some (.obj []), id := .num 1 }

/-- A payload whose structural decode failed with a syntax error. -/
def badPayload : Payload := .malformed (.syntaxErr 8 "unexpected end of JSON input")

/-- A request for an unregistered method. -/
def reqNope : Request := { method := "Nope", params := none, id := .num 1 }

/-- A named (non-predeclared) type of a fixed-width integer kind. -/
def enumType : GoType := .base .int8 "enums" "Enum"

/-- A parameterless method whose pipeline returns a non-RPC error, which the
engine coerces into an internal_error wrapping it as cause. -/
def failMethod : Method :=
  { paramsType := none,
    call := fun _ _ => .ret none (some (.plain "an internal error occurred")) }

/-- An engine with the failing method and the dump flag on. -/
def hFailDump : Handler := { dumpErrors := true, methods := [("Do", failMethod)] }

/-- A successfully parsed payload is served with status 200 and per-record
responses assembled in input order. -/
theorem serve_ok (h : Handler) (p : Payload) (rs : List Request)
    (hp : parseRequestsModel p = .ok rs) :
    serveHTTP h p =
      .response 200 (assembleBody (rs.map (fun r => applyDump h (mkResponse h r)))) := by
  simp only [serveHTTP, hp, assembleBody, List.map_map, List.length_map,
    Function.comp]
  split <;> rfl

/-- An envelope-level parse failure is served with status 400 as a single
record with a null id. -/
theorem serve_err (h : Handler) (p : Payload) (e : RPCError)
    (hp : parseRequestsModel p = .err e) :
    serveHTTP h p = .response 400 (.object ⟨.null, none, some e⟩) := by
  simp only [serveHTTP, hp, translateErrorOpt, translateRPC]

/-- When the id is valid, the method resolves and the params stage yields an
argument, invokeMethod is exactly the recover-wrapped pipeline call on that
argument. -/
theorem invoke_resolved (h : Handler) (req : Request) (m : Method)
    (args : Option GoValue)
    (hid : isNumOrStr req.id = true)
    (hm : lookupMethod h req.method = some m)
    (hargs : resolvedArgs m req = some args) :
    invokeMethod h req = recoverResult (m.call { method := req.method } args) := by
  unfold invokeMethod invokeMethodBody
  rw [hid, hm]
  simp only [Bool.true_eq_false, if_false]
  unfold resolvedArgs at hargs
  cases hpt : m.paramsType with
  | none =>
    rw [hpt] at hargs
    simp only [Option.some.injEq] at hargs
    subst hargs
    unfold runCall recoverResult
    cases hc : m.call { method := req.method } none with
    | ret v e => cases e <;> rfl
    | panicOut pv => rfl
  | some sh =>
    rw [hpt] at hargs
    by_cases hnp : newParamsPanics sh
    · simp [hnp] at hargs
    · simp only [hnp, if_false, Bool.false_eq_true] at hargs ⊢
      cases hum : unmarshalRaw sh req.params with
      | error de => rw [hum] at hargs; simp at hargs
      | ok gv =>
        rw [hum] at hargs
        simp only [Option.some.injEq] at hargs
        subst hargs
        cases hc : m.call { method := req.method } (some gv) with
        | ret v e => cases e <;> simp [runCall, recoverResult, hc]
        | panicOut pv => simp [runCall, recoverResult, hc]

/-- Translating an optional error preserves presence. -/
theorem translateErrorOpt_isSome (o : Option GoError) :
    (translateErrorOpt o).isSome = o.isSome := by
  cases o <;> rfl

/-- A normally returned runCall result has a nil result or a nil error. -/
theorem runCall_excl (ctx : Context) (m : Method) (a : Option GoValue)
    (r : Option Value × Option GoError) (hr : runCall ctx m a = .ok r) :
    r.1 = none ∨ r.2 = none := by
  unfold runCall at hr
  cases hc : m.call ctx a with
  | ret v e =>
    rw [hc] at hr
    cases e with
    | none => simp at hr; subst hr; right; rfl
    | some ge => simp at hr; subst hr; left; rfl
  | panicOut p => rw [hc] at hr; simp at hr

/-- invokeMethod never returns both a result and an error. -/
theorem invoke_excl (h : Handler) (req : Request) :
    (invokeMethod h req).1 = none ∨ (invokeMethod h req).2 = none := by
  unfold invokeMethod
  cases hb : invokeMethodBody h req with
  | error p => left; rfl
  | ok r =>
    show r.1 = none ∨ r.2 = none
    unfold invokeMethodBody at hb
    split at hb
    · simp only [Except.ok.injEq] at hb; subst hb; left; rfl
    · split at hb
      · simp only [Except.ok.injEq] at hb; subst hb; left; rfl
      · split at hb
        · exact runCall_excl _ _ _ _ hb
        · split at hb
          · exact absurd hb (by simp)
          · split at hb
            · simp only [Except.ok.injEq] at hb; subst hb; left; rfl
            · exact runCall_excl _ _ _ _ hb

/-- Serialized details are present exactly when the dump flag is set and a
cause is wrapped. -/
theorem marshal_details_isSome (e : RPCError) :
    (marshalRPCError e).details.isSome = (e.dumpErrors && e.wrapped.isSome) := by
  cases e with
  | mk n m d du w =>
    cases w <;> cases du <;>
      simp [marshalRPCError, RPCError.dumpErrors, RPCError.wrapped]

/-- With the dump flag unset, serialized details are absent. -/
theorem marshal_details_none (e : RPCError) (hd : e.dumpErrors = false) :
    (marshalRPCError e).details = none := by
  cases e with
  | mk n m d du w =>
    simp only [RPCError.dumpErrors] at hd
    subst hd
    cases w <;> simp [marshalRPCError, RPCError.wrapped, RPCError.dumpErrors]

/-- Toggling the dump flag never changes the serialized name, message or
data fields. -/
theorem marshal_setDump_fields (e : RPCError) (b : Bool) :
    (marshalRPCError (setDump b e)).name = (marshalRPCError e).name ∧
    (marshalRPCError (setDump b e)).message = (marshalRPCError e).message ∧
    (marshalRPCError (setDump b e)).data = (marshalRPCError e).data := by
  cases e with
  | mk n m d du w => exact ⟨rfl, rfl, rfl⟩

/-- Setting the dump flag preserves the wrapped cause. -/
theorem setDump_wrapped (e : RPCError) (b : Bool) :
    (setDump b e).wrapped = e.wrapped := by
  cases e with
  | mk n m d du w => rfl

/-- Setting the dump flag sets exactly the dump flag. -/
theorem setDump_dumpErrors (e : RPCError) (b : Bool) :
    (setDump b e).dumpErrors = b := by
  cases e with
  | mk n m d du w => rfl

/-- Every envelope-level error leaves the parser with its dump flag unset. -/
theorem parse_err_dump (p : Payload) (e : RPCError)
    (hp : parseRequestsModel p = .err e) : e.dumpErrors = false := by
  cases p with
  | malformed de =>
    simp only [parseRequestsModel, ParseOutcome.err.injEq] at hp
    subst hp
    rfl
  | single r =>
    simp only [parseRequestsModel, finishParse] at hp
    split at hp
    · simp only [ParseOutcome.err.injEq] at hp; subst hp; rfl
    · split at hp
      · exact absurd hp (by simp)
      · simp only [ParseOutcome.err.injEq] at hp; subst hp; rfl
      · exact absurd hp (by simp)
  | array rs =>
    simp only [parseRequestsModel, finishParse] at hp
    split at hp
    · simp only [ParseOutcome.err.injEq] at hp; subst hp; rfl
    · split at hp
      · exact absurd hp (by simp)
      · simp only [ParseOutcome.err.injEq] at hp; subst hp; rfl
      · exact absurd hp (by simp)

/-- Under a handler whose pipelines only return errors with the dump flag
unset, every record-level error leaves invokeMethod with the flag unset. -/
theorem invoke_err_dump (h : Handler) (req : Request)
    (hclean : handlerErrorsClean h) (e : RPCError)
    (he : translateErrorOpt (invokeMethod h req).2 = some e) :
    e.dumpErrors = false := by
  unfold invokeMethod at he
  cases hb : invokeMethodBody h req with
  | error p =>
    rw [hb] at he
    simp only [translateErrorOpt, translateRPC, Option.some.injEq] at he
    subst he; rfl
  | ok r =>
    rw [hb] at he
    unfold invokeMethodBody at hb
    split at hb
    · simp only [Except.ok.injEq] at hb; subst hb
      simp only [translateErrorOpt, translateRPC, Option.some.injEq] at he
      subst he; rfl
    · split at hb
      · simp only [Except.ok.injEq] at hb; subst hb
        simp only [translateErrorOpt, translateRPC, Option.some.injEq] at he
        subst he; rfl
      · rename_i m hm
        have hrc : ∀ (a : Option GoValue),
            runCall { method := req.method } m a = .ok r →
            translateErrorOpt r.2 = some e → e.dumpErrors = false := by
          intro a hra hea
          unfold runCall at hra
          cases hc : m.call { method := req.method } a with
          | ret v eo =>
            rw [hc] at hra
            cases eo with
            | none =>
              simp only [Except.ok.injEq] at hra; subst hra
              simp [translateErrorOpt] at hea
            | some ge =>
              simp only [Except.ok.injEq] at hra; subst hra
              simp only [translateErrorOpt, translateRPC, Option.some.injEq] at hea
              cases ge with
              | rpc e0 =>
                have hcl := hclean req.method m hm { method := req.method } a v e0 hc
                simp only [translateRPC] at hea
                subst hea; exact hcl
              | plain s =>
                simp only [translateRPC] at hea
                subst hea; rfl
          | panicOut pv => rw [hc] at hra; simp at hra
        split at hb
        · exact hrc none hb he
        · split at hb
          · exact absurd hb (by simp)
          · split at hb
            · simp only [Except.ok.injEq] at hb; subst hb
              simp only [translateErrorOpt, translateRPC, Option.some.injEq] at he
              subst he; rfl
            · exact hrc _ hb he

/-- On hashable values, hashEq coincides with equality. -/
theorem hashEq_iff (a b : Value) (ha : hashable a = true) :
    hashEq a b = true ↔ a = b := by
  cases a <;> cases b <;> simp_all [hashEq, hashable]

/-- Membership via hashEq coincides with list membership for hashable
values. -/
theorem any_hashEq_iff_mem (a : Value) (seen : List Value)
    (ha : hashable a = true) :
    seen.any (hashEq a) = true ↔ a ∈ seen := by
  rw [List.any_eq_true]
  constructor
  · rintro ⟨x, hx, hxe⟩
    rw [hashEq_iff a x ha] at hxe
    exact hxe ▸ hx
  · intro hmem
    exact ⟨a, hmem, (hashEq_iff a a ha).mpr rfl⟩

/-- On all-hashable ids, the uniqueness loop reports a duplicate exactly when
the seen set joined with the remaining ids is not duplicate-free. -/
theorem checkIds_dup_iff (ids : List Value) (seen : List Value)
    (hall : ∀ id ∈ ids, hashable id = true) (hseen : seen.Nodup) :
    (checkIds seen ids = .dup ↔ ¬ (seen ++ ids).Nodup) := by
  induction ids generalizing seen with
  | nil =>
    simp only [checkIds, List.append_nil]
    constructor
    · intro hcontra; exact absurd hcontra (by simp)
    · intro hnd; exact absurd hseen hnd
  | cons a rest ih =>
    have ha : hashable a = true := hall a (List.mem_cons_self a rest)
    have hrest : ∀ id ∈ rest, hashable id = true :=
      fun id hid => hall id (List.mem_cons_of_mem a hid)
    simp only [checkIds, ha, Bool.true_eq_false, if_false]
    by_cases hmem : a ∈ seen
    · rw [if_pos ((any_hashEq_iff_mem a seen ha).mpr hmem)]
      constructor
      · intro _
        intro hnd
        have hdisj := (List.nodup_append.mp hnd).2.2
        exact hdisj hmem (List.mem_cons_self a rest)
      · intro _; rfl
    · rw [if_neg (by rw [any_hashEq_iff_mem a seen ha]; exact hmem)]
      rw [ih (a :: seen) hrest (List.nodup_cons.mpr ⟨hmem, hseen⟩)]
      have hperm : (seen ++ a :: rest).Perm ((a :: seen) ++ rest) :=
        List.perm_middle
      rw [hperm.nodup_iff]

/-- The records of an assembled body are the assembled list itself. -/
theorem bodyRecords_assemble (l : List ResponseRecord) :
    bodyRecords (assembleBody l) = l := by
  rcases l with _ | ⟨x, _ | ⟨y, t⟩⟩ <;> simp [assembleBody, bodyRecords]

/-- The dump loop never changes a record id. -/
theorem applyDump_id (h : Handler) (r : ResponseRecord) :
    (applyDump h r).id = r.id := by
  cases hd : h.dumpErrors <;> simp [applyDump, hd]

/-- Claim C1: a panic of any kind raised by the pipeline during one record
of a batch is caught; that record carries an internal_error / "internal
error" RPC error wrapping the panic value as cause; the envelope status is
200; and every record of the batch is still the per-record function of that
record alone, so siblings are exactly what they would be without the
panicking record. -/
theorem c1_panic_contained (h : Handler) (rs : List Request) (req : Request)
    (m : Method) (args : Option GoValue) (pv : PanicVal)
    (hparse : parseRequestsModel (.array rs) = .ok rs)
    (_hmem : req ∈ rs)
    (hm : lookupMethod h req.method = some m)
    (hid : isNumOrStr req.id = true)
    (hargs : resolvedArgs m req = some args)
    (hpanic : m.call { method := req.method } args = .panicOut pv) :
    serveHTTP h (.array rs) =
      .response 200 (assembleBody (rs.map (fun r => applyDump h (mkResponse h r)))) ∧
    mkResponse h req = ⟨req.id, none, some (internalError (panicToErr pv))⟩ ∧
    (∀ rs₁ rs₂, rs = rs₁ ++ req :: rs₂ →
      rs.map (fun r => applyDump h (mkResponse h r)) =
        rs₁.map (fun r => applyDump h (mkResponse h r)) ++
          applyDump h (mkResponse h req) ::
            rs₂.map (fun r => applyDump h (mkResponse h r))) := by
  refine ⟨serve_ok h _ rs hparse, ?_, ?_⟩
  · have hie := invoke_resolved h req m args hid hm hargs
    rw [hpanic] at hie
    simp [mkResponse, hie, translateErrorOpt, translateRPC, recoverResult]
  · intro rs₁ rs₂ hsplit
    rw [hsplit]
    simp

/-- Witness for C1: a two-record batch whose first record panics; the
envelope is a 200 array, the panicking record carries the internal error,
and the sibling still carries its own result. -/
theorem c1_witness :
    parseRequestsModel (.array [reqPanic, reqOk]) = .ok [reqPanic, reqOk] ∧
    mkResponse hPanicOk reqPanic =
      ⟨.num 1, none, some (internalError (.plain "panic error"))⟩ ∧
    serveHTTP hPanicOk (.array [reqPanic, reqOk]) =
      .response 200 (assembleBody ([reqPanic, reqOk].map
        (fun r => applyDump hPanicOk (mkResponse hPanicOk r)))) ∧
    assembleBody ([reqPanic, reqOk].map
        (fun r => applyDump hPanicOk (mkResponse hPanicOk r))) =
      .array [⟨.num 1, none, some (internalError (.plain "panic error"))⟩,
              ⟨.num 2, some (.str "ok"), none⟩] := by
  have hc := c1_panic_contained hPanicOk [reqPanic, reqOk] reqPanic panicMethod
    none (.other "panic error") rfl (List.mem_cons_self _ _) rfl rfl rfl rfl
  exact ⟨rfl, hc.2.1, hc.1, rfl⟩

/-- Counterexample for C2: two records sharing the array id [] form a batch
with a duplicated id, yet the engine panics while hashing the id as a map
key instead of returning the single invalid_request response the claim
demands for every id type. -/
theorem c2_counterexample :
    reqArr1.id = reqArr2.id ∧
    serveHTTP hEmpty (.array [reqArr1, reqArr2]) = .panicked ∧
    ServeResult.panicked ≠
      .response 400 (.object ⟨.null, none, some (invalidRequest "ids must be unique")⟩) :=
  ⟨rfl, rfl, fun hcontra => ServeResult.noConfusion hcontra⟩

/-- Claim C2 amended: for batches of two or more records whose ids are all
of hashable JSON kinds (null, boolean, number, string), a duplicated id
yields exactly one top-level invalid_request "ids must be unique" response
with null id and HTTP 400; an array- or object-typed id instead panics in
the uniqueness check. -/
theorem c2_dup_ids_amended (h : Handler) (rs : List Request)
    (hlen : 2 ≤ rs.length)
    (hhash : ∀ r ∈ rs, hashable r.id = true)
    (hdup : ¬ (rs.map (·.id)).Nodup) :
    serveHTTP h (.array rs) =
      .response 400 (.object ⟨.null, none, some (invalidRequest "ids must be unique")⟩) := by
  have hids : ∀ id ∈ rs.map (·.id), hashable id = true := by
    intro id hid
    rcases List.mem_map.mp hid with ⟨r, hr, rfl⟩
    exact hhash r hr
  have hck : checkIds [] (rs.map (·.id)) = .dup :=
    (checkIds_dup_iff _ [] hids List.nodup_nil).mpr (by simpa using hdup)
  have hp : parseRequestsModel (.array rs) = .err (invalidRequest "ids must be unique") := by
    simp only [parseRequestsModel, finishParse]
    rw [if_neg (by omega), hck]
  exact serve_err h _ _ hp

/-- Witness for C2: a two-record batch with the duplicated number id 1. -/
theorem c2_witness :
    ¬ (([reqDup1, reqDup2].map (·.id)).Nodup) ∧
    serveHTTP hEmpty (.array [reqDup1, reqDup2]) =
      .response 400 (.object ⟨.null, none, some (invalidRequest "ids must be unique")⟩) := by
  have hdup : ¬ (([reqDup1, reqDup2].map (·.id)).Nodup) :=
    fun hnd => (List.nodup_cons.mp hnd).1 (List.mem_singleton.mpr rfl)
  refine ⟨hdup, c2_dup_ids_amended hEmpty [reqDup1, reqDup2] (by simp) ?_ hdup⟩
  intro r hr
  rcases List.mem_cons.mp hr with rfl | hr2
  · rfl
  · rcases List.mem_singleton.mp hr2 with rfl
    rfl

/-- Counterexample for C3: a single request with boolean id true receives
the invalid_request response with HTTP 200, but its id field echoes the
request id true instead of being forced to null. -/
theorem c3_counterexample :
    serveHTTP hEmpty (.single reqBoolId) =
      .response 200 (.object
        ⟨.bool true, none, some (invalidRequest "id must be number or string")⟩) ∧
    Value.bool true ≠ Value.null :=
  ⟨rfl, fun hcontra => Value.noConfusion hcontra⟩

/-- Claim C3 amended: for a single-object request whose id is of a hashable
JSON kind but not a number or string, the engine responds with
invalid_request / "id must be number or string" and HTTP 200, and the
response id echoes the request id (hence it is null exactly when the id was
absent or null); an array- or object-typed id panics instead. -/
theorem c3_bad_id_amended (h : Handler) (req : Request)
    (hid : isNumOrStr req.id = false) (hh : hashable req.id = true) :
    serveHTTP h (.single req) =
      .response 200 (.object (applyDump h
        ⟨req.id, none, some (invalidRequest "id must be number or string")⟩)) := by
  have hp : parseRequestsModel (.single req) = .ok [req] := by
    simp only [parseRequestsModel, finishParse]
    rw [if_neg (by simp)]
    simp [checkIds, hh]
  have hie : invokeMethod h req =
      (none, some (.rpc (invalidRequest "id must be number or string"))) := by
    unfold invokeMethod invokeMethodBody
    rw [hid]
    simp
  rw [serve_ok h _ [req] hp]
  simp [assembleBody, mkResponse, hie, translateErrorOpt, translateRPC]

/-- Witness for C3: the boolean id true. -/
theorem c3_witness :
    isNumOrStr reqBoolId.id = false ∧ hashable reqBoolId.id = true ∧
    serveHTTP hEmpty (.single reqBoolId) =
      .response 200 (.object (applyDump hEmpty
        ⟨reqBoolId.id, none, some (invalidRequest "id must be number or string")⟩)) :=
  ⟨rfl, rfl, c3_bad_id_amended hEmpty reqBoolId rfl rfl⟩

/-- Claim C4: every successfully parsed payload is answered with one
response record per request record in input order; a single record (from a
bare object or a one-element array) is serialized as a bare object, and a
longer batch as an array of the same length with ids in the same order. -/
theorem c4_response_assembly (h : Handler) (p : Payload) (rs : List Request)
    (hp : parseRequestsModel p = .ok rs) :
    serveHTTP h p =
      .response 200 (assembleBody (rs.map (fun r => applyDump h (mkResponse h r)))) ∧
    (rs.map (fun r => applyDump h (mkResponse h r))).length = rs.length ∧
    (∀ r, (applyDump h (mkResponse h r)).id = r.id) ∧
    (∀ r0, rs = [r0] →
      serveHTTP h p = .response 200 (.object (applyDump h (mkResponse h r0)))) ∧
    (rs.length ≠ 1 →
      serveHTTP h p =
        .response 200 (.array (rs.map (fun r => applyDump h (mkResponse h r))))) := by
  refine ⟨serve_ok h p rs hp, List.length_map _ _, fun r => applyDump_id h _, ?_, ?_⟩
  · intro r0 hrs
    rw [serve_ok h p rs hp, hrs]
    simp [assembleBody]
  · intro hne
    rw [serve_ok h p rs hp]
    simp only [assembleBody, List.length_map]
    rw [if_neg hne]

/-- Witness for C4: a two-record batch answered by a 200 array in order. -/
theorem c4_witness :
    parseRequestsModel (.array [reqOk1, reqOk]) = .ok [reqOk1, reqOk] ∧
    serveHTTP hPanicOk (.array [reqOk1, reqOk]) =
      .response 200 (assembleBody ([reqOk1, reqOk].map
        (fun r => applyDump hPanicOk (mkResponse hPanicOk r)))) ∧
    assembleBody ([reqOk1, reqOk].map
        (fun r => applyDump hPanicOk (mkResponse hPanicOk r))) =
      .array [⟨.num 1, some (.str "ok"), none⟩, ⟨.num 2, some (.str "ok"), none⟩] :=
  ⟨rfl, (c4_response_assembly hPanicOk (.array [reqOk1, reqOk]) [reqOk1, reqOk] rfl).1, rfl⟩

/-- Counterexample for C5: in a group with layers A then B, the source
composition runs A (first-added) outermost, while the claim order (most
recently added outermost) runs B outermost; the two pipelines disagree on a
concrete call. -/
theorem c5_counterexample :
    composeChain groupAB baseNext obsCtx obsParams ≠
      composeChainClaim groupAB baseNext obsCtx obsParams := by
  intro hcontra
  have h1 : composeChain groupAB baseNext obsCtx obsParams =
      .ret (some (.arr [.str "A", .str "B"])) none := rfl
  have h2 : composeChainClaim groupAB baseNext obsCtx obsParams =
      .ret (some (.arr [.str "B", .str "A"])) none := rfl
  rw [h1, h2] at hcontra
  simp at hcontra

/-- Claim C5 amended: the composed pipeline applies the owning group layers
innermost and each ancestor outward to the root, with each group layers
observing the call in the order they were added (first-added outermost
within a group); so for any chain of groups the observation order is the
root tags, then each descendant, ending with the owning group tags, each
group in added order. -/
theorem c5_middleware_order_amended (tagss : List (List String)) :
    composeChain (chainOf tagss) baseNext obsCtx (some (.concrete (.arr []))) =
      .ret (some (.arr (tagss.reverse.flatten.map Value.str))) none := by
  have happly : ∀ (tags : List String) (call : Next) (p : Option GoValue),
      applyOwn (tags.map tagMW) call obsCtx p = call obsCtx (pushTags tags p) := by
    intro tags
    induction tags with
    | nil => intro call p; rfl
    | cons t ts ih =>
      intro call p
      simp only [List.map_cons, applyOwn, List.foldr_cons, pushTags, List.foldl_cons]
      exact ih call (tagMW.pushTag t p)
  have hchain : ∀ (tagss : List (List String)) (call : Next) (p : Option GoValue),
      composeChain (chainOf tagss) call obsCtx p =
        call obsCtx (pushTags (tagss.reverse.flatten) p) := by
    intro tagss
    induction tagss with
    | nil => intro call p; rfl
    | cons own rest ih =>
      cases rest with
      | nil =>
        intro call p
        simp only [chainOf, composeChain, List.reverse_cons, List.reverse_nil,
          List.nil_append, List.flatten]
        simpa using happly own call p
      | cons r rs =>
        intro call p
        simp only [chainOf, composeChain]
        rw [ih (applyOwn (own.map tagMW) call) p]
        rw [happly]
        congr 1
        simp [pushTags, List.foldl_append]
  have harr : ∀ (tags : List String) (l : List Value),
      pushTags tags (some (.concrete (.arr l))) =
        some (.concrete (.arr (l ++ tags.map Value.str))) := by
    intro tags
    induction tags with
    | nil => intro l; simp [pushTags]
    | cons t ts ih =>
      intro l
      simp only [pushTags, List.foldl_cons] at *
      rw [show tagMW.pushTag t (some (.concrete (.arr l))) =
          some (.concrete (.arr (l ++ [.str t]))) from rfl]
      rw [ih]
      simp
  rw [hchain, harr]
  simp [baseNext]

/-- Counterexample for C6: for the declared shape pointer-to-string and the
payload "Alice", decoding succeeds and dispatch hands the handler a pointer
to the decoded value, not a concrete (dereferenced) value as the claim
states. -/
theorem c6_counterexample :
    resolvedArgs probeMethod reqAlice =
      some (some (.ptrTo (.concrete (.str "Alice")))) ∧
    invokeMethod hProbe reqAlice = (some (.str "pointer value"), none) ∧
    ("pointer value" : String) ≠ "concrete value" :=
  ⟨rfl, rfl, by decide⟩

/-- Claim C6 amended: dispatch instantiates and decodes the raw payload
against the declared shape and hands the pipeline a value of exactly the
declared parameter type: the decoded concrete value for a concrete shape;
a pointer to the decoded concrete value for a single level of indirection
(the extra allocation indirection, not the declared one, is dereferenced);
and two or more levels of indirection fail at dispatch with an
internal_error from the reflect panic. -/
theorem c6_params_decode_amended (h : Handler) (req : Request) (m : Method)
    (hm : lookupMethod h req.method = some m)
    (hid : isNumOrStr req.id = true) :
    (∀ s j dv, m.paramsType = some (.concrete s) → req.params = some j →
      decodeConcrete s j = .ok dv →
      invokeMethod h req =
        recoverResult (m.call { method := req.method } (some (.concrete dv)))) ∧
    (∀ s j dv, m.paramsType = some (.ptr (.concrete s)) → req.params = some j →
      j.isNull = false → decodeConcrete s j = .ok dv →
      invokeMethod h req =
        recoverResult (m.call { method := req.method } (some (.ptrTo (.concrete dv))))) ∧
    (∀ sh, m.paramsType = some (.ptr (.ptr sh)) →
      invokeMethod h req = (none, some (.rpc (internalError (.plain reflectSetMsg))))) := by
  refine ⟨?_, ?_, ?_⟩
  · intro s j dv hpt hj hdec
    refine invoke_resolved h req m _ hid hm ?_
    simp [resolvedArgs, hpt, newParamsPanics, unmarshalRaw, hj, unmarshalShape,
      hdec, Except.map]
  · intro s j dv hpt hj hnull hdec
    refine invoke_resolved h req m _ hid hm ?_
    simp [resolvedArgs, hpt, newParamsPanics, unmarshalRaw, hj, unmarshalShape,
      hnull, hdec, Except.map]
  · intro sh hpt
    unfold invokeMethod invokeMethodBody
    rw [hid, hm]
    simp [hpt, newParamsPanics, panicToErr]

/-- Witness for C6: the probe method receives the pointer to the decoded
string. -/
theorem c6_witness :
    lookupMethod hProbe reqAlice.method = some probeMethod ∧
    decodeConcrete .str (.str "Alice") = .ok (.str "Alice") ∧
    invokeMethod hProbe reqAlice =
      recoverResult (probeMethod.call { method := reqAlice.method }
        (some (.ptrTo (.concrete (.str "Alice"))))) :=
  ⟨rfl, rfl,
    (c6_params_decode_amended hProbe reqAlice probeMethod rfl rfl).2.1
      .str (.str "Alice") (.str "Alice") rfl rfl rfl rfl⟩

/-- Counterexample for C7: with debug-dump enabled and a malformed body, the
emitted parse_error wraps a cause, yet its serialized details are absent,
because the parse-failure path returns before the dump loop runs. -/
theorem c7_counterexample :
    hEmptyDump.dumpErrors = true ∧
    emittedErrors (serveHTTP hEmptyDump badPayload) =
      [parseError (.syntaxErr 8 "unexpected end of JSON input") "cannot parse request"] ∧
    (parseError (.syntaxErr 8 "unexpected end of JSON input")
        "cannot parse request").wrapped.isSome = true ∧
    (marshalRPCError (parseError (.syntaxErr 8 "unexpected end of JSON input")
        "cannot parse request")).details = none :=
  ⟨rfl, rfl, rfl, rfl⟩

/-- Claim C7 amended: for record-level errors of a handler whose pipelines
leave the dump flag unset (as every public constructor does), serialized
details are present exactly when debug-dump is enabled and a cause is
wrapped; envelope-level (parse-stage) errors never carry details, because
the parse path skips the dump loop; toggling the dump flag never changes
the serialized name, message or data; and whenever details are present they
equal the wrapped cause rendered to text with every tab replaced by two
spaces and the result split on newlines into an ordered list of lines. -/
theorem c7_details_amended (h : Handler) (p : Payload) :
    (handlerErrorsClean h →
      ∀ rs, parseRequestsModel p = .ok rs →
        ∀ e, e ∈ emittedErrors (serveHTTP h p) →
          (marshalRPCError e).details.isSome = (h.dumpErrors && e.wrapped.isSome)) ∧
    (∀ e0, parseRequestsModel p = .err e0 →
      ∀ e, e ∈ emittedErrors (serveHTTP h p) →
        (marshalRPCError e).details = none) ∧
    (∀ e b,
      (marshalRPCError (setDump b e)).name = (marshalRPCError e).name ∧
      (marshalRPCError (setDump b e)).message = (marshalRPCError e).message ∧
      (marshalRPCError (setDump b e)).data = (marshalRPCError e).data) ∧
    (∀ (e : RPCError) (ds : List String), (marshalRPCError e).details = some ds →
      ∃ w, e.wrapped = some w ∧ ds = renderDetails w) := by
  refine ⟨?_, ?_, fun e b => marshal_setDump_fields e b, ?_⟩
  case refine_3 =>
    intro e ds hds
    cases e with
    | mk n m d du w =>
      cases w with
      | none =>
        simp [marshalRPCError, RPCError.wrapped, RPCError.dumpErrors] at hds
      | some w0 =>
        cases du with
        | false =>
          simp [marshalRPCError, RPCError.wrapped, RPCError.dumpErrors] at hds
        | true =>
          simp only [marshalRPCError, RPCError.wrapped, RPCError.dumpErrors,
            if_true, Option.some.injEq] at hds
          exact ⟨w0, rfl, hds.symm⟩
  · intro hclean rs hp e he
    rw [serve_ok h p rs hp] at he
    simp only [emittedErrors, bodyRecords_assemble] at he
    rcases List.mem_filterMap.mp he with ⟨rec, hrec, herr⟩
    rcases List.mem_map.mp hrec with ⟨r, hr, rfl⟩
    rw [marshal_details_isSome]
    cases hd : h.dumpErrors with
    | true =>
      simp only [applyDump, hd, if_true] at herr
      rcases Option.map_eq_some'.mp herr with ⟨e0, he0, rfl⟩
      rw [setDump_dumpErrors]
    | false =>
      simp only [applyDump, hd, Bool.false_eq_true, if_false] at herr
      rw [invoke_err_dump h r hclean e herr]
  · intro e0 hp e he
    rw [serve_err h p e0 hp] at he
    simp only [emittedErrors, bodyRecords, List.filterMap] at he
    simp at he
    subst he
    exact marshal_details_none _ (parse_err_dump p _ hp)

/-- Witness for C7: debug-dump enabled, a valid single request to an
unregistered method makes the record-level detail property concrete; and a
pipeline failing with a plain error under debug-dump emits an internal
error whose serialized details are exactly the rendered cause, one line. -/
theorem c7_witness :
    handlerErrorsClean hEmptyDump ∧
    parseRequestsModel (.single reqNope) = .ok [reqNope] ∧
    emittedErrors (serveHTTP hEmptyDump (.single reqNope)) =
      [setDump true (methodNotFound "Nope")] ∧
    (∀ e, e ∈ emittedErrors (serveHTTP hEmptyDump (.single reqNope)) →
      (marshalRPCError e).details.isSome = (hEmptyDump.dumpErrors && e.wrapped.isSome)) ∧
    emittedErrors (serveHTTP hFailDump (.single reqDo)) =
      [setDump true (internalError (.plain "an internal error occurred"))] ∧
    (marshalRPCError (setDump true
        (internalError (.plain "an internal error occurred")))).details =
      some (renderDetails (.plain "an internal error occurred")) ∧
    renderDetails (.plain "an internal error occurred") =
      ["an internal error occurred"] ∧
    (∃ w, (setDump true
        (internalError (.plain "an internal error occurred"))).wrapped = some w ∧
      renderDetails (.plain "an internal error occurred") = renderDetails w) := by
  have hclean : handlerErrorsClean hEmptyDump := by
    intro n m hm
    simp [lookupMethod, hEmptyDump] at hm
  exact ⟨hclean, rfl, rfl,
    (c7_details_amended hEmptyDump (.single reqNope)).1 hclean [reqNope] rfl,
    rfl, rfl, rfl,
    (c7_details_amended hFailDump (.single reqDo)).2.2.2
      (setDump true (internalError (.plain "an internal error occurred")))
      (renderDetails (.plain "an internal error occurred")) rfl⟩

/-- Counterexample for C8: a named (non-predeclared) type of a fixed-width
integer kind is reported with no type name, not "integer" as the claim
maps all fixed-width integer widths. -/
theorem c8_counterexample :
    jsonType enumType = "" ∧ claimedJSONType enumType = "integer" ∧
    ("" : String) ≠ "integer" :=
  ⟨rfl, rfl, by decide⟩

/-- Claim C8 amended: the type reporter strips indirections and then maps
predeclared primitive kinds to boolean/integer/number/string, the dedicated
time and duration shapes to their names, structs/maps to object and
arrays/slices to array; a named shape of primitive kind yields no type
clause. -/
theorem c8_type_reporter_amended (t : GoType) :
    jsonType t = amendedJSONType t := by
  induction t with
  | ptr t ih => simpa [jsonType, amendedJSONType] using ih
  | base k pkg name =>
    cases k <;>
      simp [jsonType, amendedJSONType, primJSONType, structuralJSONType,
        amendedUnnamedName, amendedNamedName] <;>
      split_ifs <;> simp_all

/-- Counterexample for C9: a pipeline returning a nil result and a nil
error produces a response record in which neither result nor error is
populated, against the claim that exactly one always is and that result is
populated whenever the pipeline returned without error. -/
theorem c9_counterexample :
    (invokeMethod hNoop reqDo).2 = none ∧
    (mkResponse hNoop reqDo).result = none ∧
    (mkResponse hNoop reqDo).error = none :=
  ⟨rfl, rfl, rfl⟩

/-- Claim C9 amended: at most one of result and error is populated; error
is populated exactly when per-record dispatch produced an error (or
panic); result is populated exactly when dispatch produced no error and
the pipeline returned a non-nil result. -/
theorem c9_result_error_amended (h : Handler) (req : Request) :
    ((mkResponse h req).result.isSome && (mkResponse h req).error.isSome) = false ∧
    (mkResponse h req).error.isSome = (invokeMethod h req).2.isSome ∧
    (mkResponse h req).result.isSome =
      ((invokeMethod h req).2.isNone && (invokeMethod h req).1.isSome) := by
  have herr : (mkResponse h req).error.isSome = (invokeMethod h req).2.isSome :=
    translateErrorOpt_isSome _
  have hres : (mkResponse h req).result = (invokeMethod h req).1 := rfl
  rcases invoke_excl h req with h1 | h2
  · refine ⟨?_, herr, ?_⟩
    · rw [Bool.and_eq_false_iff]
      left
      rw [hres, h1]
      rfl
    · rw [hres, h1]
      simp
  · refine ⟨?_, herr, ?_⟩
    · rw [Bool.and_eq_false_iff]
      right
      rw [herr, h2]
      rfl
    · rw [hres, h2]
      simp

/-- Claim C10: a method whose handler declares no parameter shape is
dispatched without ever decoding the raw params payload: the pipeline is
invoked with no argument, and the outcome is independent of whatever
params payload the record carries. -/
theorem c10_no_params_no_decode (h : Handler) (req : Request) (m : Method)
    (hm : lookupMethod h req.method = some m)
    (hpt : m.paramsType = none)
    (hid : isNumOrStr req.id = true) :
    invokeMethod h req = recoverResult (m.call { method := req.method } none) ∧
    ∀ p', invokeMethod h { req with params := p' } =
      recoverResult (m.call { method := req.method } none) := by
  constructor
  · exact invoke_resolved h req m none hid hm (by simp [resolvedArgs, hpt])
  · intro p'
    exact invoke_resolved h { req with params := p' } m none hid hm
      (by simp [resolvedArgs, hpt])

/-- Witness for C10: the parameterless timestamp method invoked with a junk
params payload present. -/
theorem c10_witness :
    nowMethod.paramsType = none ∧
    invokeMethod hNow reqNow =
      recoverResult (nowMethod.call { method := reqNow.method } none) ∧
    recoverResult (nowMethod.call { method := reqNow.method } none) =
      (some (.str "2000-01-01T01:00:00Z"), none) :=
  ⟨rfl, (c10_no_params_no_decode hNow reqNow nowMethod rfl rfl rfl).1, rfl⟩
